import Mathlib

/-!
Verification of the KYB report normalization pipeline of this repository.

The repository's core (spec §2) is the Report Normalizer: it extracts a JSON
candidate from raw LLM output text, optionally repairs it, parses it, and
coerces fields into the canonical `CompanyReport` shape.  The relevant source
is `generate_kyb_report` in `script_v3.py` (extraction + field coercions +
fallback record) and in `app_v3.py` (repair pass + final restructuring), and
the enrichment merge in `script_v3.py`'s `main`.

Text is modelled as `List Char` (Python `str` operates on code points, as
does `List Char`).  Parsed JSON values are modelled by `JValue`; Python dicts
(insertion-ordered, unique keys) are association lists with
replace-in-place assignment, exactly mirroring CPython semantics.
-/

set_option maxRecDepth 10000

abbrev Chars := List Char

/-- Python regex `\s` on ASCII text: space, tab, newline, carriage return,
form feed, vertical tab (`re` module whitespace class). -/
def pyWs (c : Char) : Bool :=
  c = ' ' || c = '\t' || c = '\n' || c = '\x0d' || c = '\x0c' || c = '\x0b'

/-- JSON whitespace accepted by Python `json.loads`: space, tab, newline,
carriage return. -/
def jsonWs (c : Char) : Bool :=
  c = ' ' || c = '\t' || c = '\n' || c = '\x0d'

/-- Drop leading and trailing Python whitespace (models `str.strip()` and the
`\s*` trimming around a regex capture group). -/
def trimWs (s : Chars) : Chars :=
  ((s.dropWhile pyWs).reverse.dropWhile pyWs).reverse

/-- Index of the first occurrence of `pat` in `s`, if any (models
`str.find` / leftmost regex literal match). -/
def findSub (pat : Chars) : Chars → Option Nat
  | [] => if pat = [] then some 0 else none
  | c :: t =>
    if pat.isPrefixOf (c :: t) then some 0
    else (findSub pat t).map (· + 1)

/-- Parsed JSON values as produced by Python `json.loads`.  Numbers are
modelled in their integer fragment only: a fractional or exponent part makes
the modelled parser fail, which no behaviour considered here depends on. -/
inductive JValue where
  | jnull
  | jbool (b : Bool)
  | jnum (n : Int)
  | jstr (s : Chars)
  | jarr (xs : List JValue)
  | jobj (kvs : List (Chars × JValue))

open JValue

mutual

def JValue.decEq : (a b : JValue) → Decidable (a = b)
  | jnull, jnull => isTrue rfl
  | jbool a, jbool b => decidable_of_iff (a = b) (by simp)
  | jnum a, jnum b => decidable_of_iff (a = b) (by simp)
  | jstr a, jstr b => decidable_of_iff (a = b) (by simp)
  | jarr xs, jarr ys =>
    match JValue.decEqList xs ys with
    | isTrue h => isTrue (by rw [h])
    | isFalse h => isFalse (fun hh => h (JValue.jarr.inj hh))
  | jobj xs, jobj ys =>
    match JValue.decEqMembers xs ys with
    | isTrue h => isTrue (by rw [h])
    | isFalse h => isFalse (fun hh => h (JValue.jobj.inj hh))
  | jnull, jbool _ | jnull, jnum _ | jnull, jstr _ | jnull, jarr _ | jnull, jobj _
  | jbool _, jnull | jbool _, jnum _ | jbool _, jstr _ | jbool _, jarr _ | jbool _, jobj _
  | jnum _, jnull | jnum _, jbool _ | jnum _, jstr _ | jnum _, jarr _ | jnum _, jobj _
  | jstr _, jnull | jstr _, jbool _ | jstr _, jnum _ | jstr _, jarr _ | jstr _, jobj _
  | jarr _, jnull | jarr _, jbool _ | jarr _, jnum _ | jarr _, jstr _ | jarr _, jobj _
  | jobj _, jnull | jobj _, jbool _ | jobj _, jnum _ | jobj _, jstr _ | jobj _, jarr _ =>
    isFalse nofun

def JValue.decEqList : (xs ys : List JValue) → Decidable (xs = ys)
  | [], [] => isTrue rfl
  | [], _ :: _ => isFalse nofun
  | _ :: _, [] => isFalse nofun
  | x :: xs, y :: ys =>
    match JValue.decEq x y with
    | isFalse h => isFalse (fun hh => h (List.cons.inj hh).1)
    | isTrue h1 =>
      match JValue.decEqList xs ys with
      | isTrue h2 => isTrue (by rw [h1, h2])
      | isFalse h2 => isFalse (fun hh => h2 (List.cons.inj hh).2)

def JValue.decEqMembers : (xs ys : List (Chars × JValue)) → Decidable (xs = ys)
  | [], [] => isTrue rfl
  | [], _ :: _ => isFalse nofun
  | _ :: _, [] => isFalse nofun
  | (k₁, v₁) :: xs, (k₂, v₂) :: ys =>
    if hk : k₁ = k₂ then
      match JValue.decEq v₁ v₂ with
      | isFalse h => isFalse (fun hh => h (Prod.mk.inj (List.cons.inj hh).1).2)
      | isTrue hv =>
        match JValue.decEqMembers xs ys with
        | isTrue h2 => isTrue (by rw [hk, hv, h2])
        | isFalse h2 => isFalse (fun hh => h2 (List.cons.inj hh).2)
    else isFalse (fun hh => hk (Prod.mk.inj (List.cons.inj hh).1).1)

end

instance : DecidableEq JValue := JValue.decEq

/-- A Python dict with string keys, as built by `json.loads`:
insertion-ordered association list with unique keys. -/
abbrev Record := List (Chars × JValue)

/-- Python `dict.get(k)` (also `d[k]` when the key exists). -/
def rget (r : Record) (k : Chars) : Option JValue :=
  match r with
  | [] => none
  | (k₁, v) :: t => if k₁ = k then some v else rget t k

/-- Python `d[k] = v`: replace the value in place if the key exists
(keeping its position), else append. -/
def rset (r : Record) (k : Chars) (v : JValue) : Record :=
  match r with
  | [] => [(k, v)]
  | (k₁, v₁) :: t => if k₁ = k then (k, v) :: t else (k₁, v₁) :: rset t k v

/-- Python truthiness of a parsed-JSON value. -/
def truthy : JValue → Bool
  | jnull => false
  | jbool b => b
  | jnum n => n != 0
  | jstr s => !s.isEmpty
  | jarr xs => !xs.isEmpty
  | jobj kvs => !kvs.isEmpty

/-- Python `len()` on a parsed-JSON value; `none` models `TypeError` for
values without a length. -/
def pyLen : JValue → Option Nat
  | jstr s => some s.length
  | jarr xs => some xs.length
  | jobj kvs => some kvs.length
  | _ => none

/-! ## A model of Python `json.loads`

Recursive-descent parser over `Chars`, following the JSON grammar as
accepted by strict-mode `json.loads`: unescaped control characters in
strings are rejected, `\uXXXX` escapes are decoded (surrogate code points
are rejected by the model), duplicate object keys keep the first position
with the last value (CPython dict assignment), and the whole input must be
a single value surrounded only by whitespace.  Numbers are modelled in the
integer fragment only (a `.`, `e` or `E` after the digits fails the
parse). The `fuel` argument makes the recursion structural; `parseJson`
supplies fuel that dominates the input length, so it never runs out on
inputs of interest. -/

def skipJWs (s : Chars) : Chars := s.dropWhile jsonWs

def hexVal (c : Char) : Option Nat :=
  if '0' ≤ c ∧ c ≤ '9' then some (c.toNat - '0'.toNat)
  else if 'a' ≤ c ∧ c ≤ 'f' then some (c.toNat - 'a'.toNat + 10)
  else if 'A' ≤ c ∧ c ≤ 'F' then some (c.toNat - 'A'.toNat + 10)
  else none

def digitsToNat : Chars → Nat → Nat
  | [], acc => acc
  | c :: t, acc => digitsToNat t (acc * 10 + (c.toNat - '0'.toNat))

/-- Parse a JSON number (integer fragment; see module comment). -/
def parseNumber (s : Chars) : Option (JValue × Chars) :=
  let core : Chars → Option (Nat × Chars) := fun t =>
    let digits := t.takeWhile (·.isDigit)
    let rest := t.dropWhile (·.isDigit)
    if digits = [] then none
    else if digits.head? = some '0' ∧ digits.length > 1 then none
    else
      match rest with
      | '.' :: _ => none
      | 'e' :: _ => none
      | 'E' :: _ => none
      | _ => some (digitsToNat digits 0, rest)
  match s with
  | '-' :: t => (core t).map (fun p => (jnum (-(p.1 : Int)), p.2))
  | _ => (core s).map (fun p => (jnum (p.1 : Int), p.2))

mutual

/-- Parse one JSON value starting at `s` (no leading whitespace). -/
def parseValue : Nat → Chars → Option (JValue × Chars)
  | 0, _ => none
  | fuel + 1, s =>
    match s with
    | [] => none
    | c :: t =>
      if c = 'n' then
        if ("ull".toList).isPrefixOf t then some (jnull, t.drop 3) else none
      else if c = 't' then
        if ("rue".toList).isPrefixOf t then some (jbool true, t.drop 3) else none
      else if c = 'f' then
        if ("alse".toList).isPrefixOf t then some (jbool false, t.drop 4) else none
      else if c = '"' then
        (parseStringRest fuel t).map (fun p => (jstr p.1, p.2))
      else if c = '[' then
        parseArray fuel (skipJWs t)
      else if c = '{' then
        parseObject fuel (skipJWs t)
      else
        parseNumber (c :: t)

/-- Parse the remainder of a string literal, after the opening quote. -/
def parseStringRest : Nat → Chars → Option (Chars × Chars)
  | 0, _ => none
  | fuel + 1, s =>
    match s with
    | [] => none
    | '"' :: t => some ([], t)
    | '\\' :: e :: t =>
      if e = '"' ∨ e = '\\' ∨ e = '/' then
        (parseStringRest fuel t).map (fun p => (e :: p.1, p.2))
      else if e = 'b' then
        (parseStringRest fuel t).map (fun p => ('\x08' :: p.1, p.2))
      else if e = 'f' then
        (parseStringRest fuel t).map (fun p => ('\x0c' :: p.1, p.2))
      else if e = 'n' then
        (parseStringRest fuel t).map (fun p => ('\n' :: p.1, p.2))
      else if e = 'r' then
        (parseStringRest fuel t).map (fun p => ('\x0d' :: p.1, p.2))
      else if e = 't' then
        (parseStringRest fuel t).map (fun p => ('\t' :: p.1, p.2))
      else if e = 'u' then
        match t with
        | h₁ :: h₂ :: h₃ :: h₄ :: t₄ =>
          match hexVal h₁, hexVal h₂, hexVal h₃, hexVal h₄ with
          | some a, some b, some c', some d =>
            let n := ((a * 16 + b) * 16 + c') * 16 + d
            if n < 0xd800 then
              (parseStringRest fuel t₄).map (fun p => (Char.ofNat n :: p.1, p.2))
            else if n ≥ 0xe000 then
              (parseStringRest fuel t₄).map (fun p => (Char.ofNat n :: p.1, p.2))
            else none
          | _, _, _, _ => none
        | _ => none
      else none
    | c :: t =>
      if c.toNat < 0x20 then none
      else (parseStringRest fuel t).map (fun p => (c :: p.1, p.2))

/-- Parse an array body after `[` with leading whitespace skipped. -/
def parseArray : Nat → Chars → Option (JValue × Chars)
  | 0, _ => none
  | fuel + 1, s =>
    match s with
    | ']' :: t => some (jarr [], t)
    | _ => parseElems fuel s []

/-- Parse the elements of a non-empty array. -/
def parseElems : Nat → Chars → List JValue → Option (JValue × Chars)
  | 0, _, _ => none
  | fuel + 1, s, acc =>
    match parseValue fuel (skipJWs s) with
    | none => none
    | some (v, rest) =>
      match skipJWs rest with
      | ',' :: t => parseElems fuel t (acc ++ [v])
      | ']' :: t => some (jarr (acc ++ [v]), t)
      | _ => none

/-- Parse an object body after `{` with leading whitespace skipped. -/
def parseObject : Nat → Chars → Option (JValue × Chars)
  | 0, _ => none
  | fuel + 1, s =>
    match s with
    | '}' :: t => some (jobj [], t)
    | _ => parseMembers fuel s []

/-- Parse the members of a non-empty object.  Key collisions follow CPython
dict assignment (`rset`): first position, last value. -/
def parseMembers : Nat → Chars → Record → Option (JValue × Chars)
  | 0, _, _ => none
  | fuel + 1, s, acc =>
    match s with
    | '"' :: t =>
      match parseStringRest fuel t with
      | none => none
      | some (key, r₁) =>
        match skipJWs r₁ with
        | ':' :: r₂ =>
          match parseValue fuel (skipJWs r₂) with
          | none => none
          | some (v, r₃) =>
            match skipJWs r₃ with
            | ',' :: r₄ => parseMembers fuel (skipJWs r₄) (rset acc key v)
            | '}' :: r₄ => some (jobj (rset acc key v), r₄)
            | _ => none
        | _ => none
    | _ => none

end

/-- Model of Python `json.loads`: parse a complete JSON document. -/
def parseJson (s : Chars) : Option JValue :=
  match parseValue (8 * s.length + 16) (skipJWs s) with
  | some (v, rest) => if skipJWs rest = [] then some v else none
  | none => none

/-! ## Candidate extraction (`script_v3.py` lines 65–73)

`re.search(r'```json\s*(.*?)\s*```', output_text, re.DOTALL)` with a
fallback `re.search(r'({.*})', output_text, re.DOTALL)`.

For the fenced pattern, the leftmost match starts at the first occurrence of
the literal backtick-backtick-backtick-json; the greedy leading `\s*`, the
lazy group and the trailing `\s*` make the captured group equal to the text
between that occurrence and the next triple backtick, trimmed of surrounding
whitespace.  A completed match exists exactly when a triple backtick occurs
after the first fence opening (later fence openings themselves contain a
triple backtick, so searching after the first one is exhaustive).

For the greedy brace pattern, the leftmost-longest match runs from the first
brace-open character to the last brace-close character of the whole text,
provided the former precedes the latter. -/

def fenceOpen : Chars := "```json".toList

def fenceClose : Chars := "```".toList

/-- Captured group of `re.search(r'```json\s*(.*?)\s*```', s, re.DOTALL)`. -/
def fencedBlock (s : Chars) : Option Chars :=
  match findSub fenceOpen s with
  | none => none
  | some i =>
    let after := s.drop (i + fenceOpen.length)
    match findSub fenceClose after with
    | none => none
    | some j => some (trimWs (after.take j))

/-- Index of the last occurrence of `c` in `s`, if any. -/
def findLast (c : Char) (s : Chars) : Option Nat :=
  match findSub [c] s.reverse with
  | none => none
  | some i => some (s.length - 1 - i)

/-- Captured group of `re.search(r'({.*})', s, re.DOTALL)`. -/
def braceSpan (s : Chars) : Option Chars :=
  match findSub ['\x7b'] s, findLast '\x7d' s with
  | some i, some j => if i < j then some ((s.drop i).take (j - i + 1)) else none
  | _, _ => none

/-- The extraction step of `generate_kyb_report` (`script_v3.py` 65–73,
identically `app_v2.py` 94–102 and `script_v2.py` 60–67): prefer the fenced
JSON block, else the brace span, else the full text. -/
def extractCandidate (s : Chars) : Chars :=
  match fencedBlock s with
  | some c => c
  | none =>
    match braceSpan s with
    | some b => b
    | none => s

/-! ## Repair pass (`app_v3.py` lines 416–422)

`strip()`; if the text starts with a fenced-JSON opening, remove every
occurrence of the opening marker and then of the triple backtick; replace
every single quote by a double quote; `re.sub(r',\s*}', '}')` and
`re.sub(r',\s*]', ']')`. -/

/-- Python `str.replace(pat, "")` for a non-empty pattern `p :: ps`:
remove every occurrence, scanning left to right without overlap.  The fuel
makes the recursion structural; every step consumes at least one character,
so fuel equal to the length never runs out. -/
def removeAllFuel (p : Char) (ps : Chars) : Nat → Chars → Chars
  | 0, s => s
  | _ + 1, [] => []
  | fuel + 1, c :: t =>
    if (p :: ps).isPrefixOf (c :: t) then removeAllFuel p ps fuel (t.drop ps.length)
    else c :: removeAllFuel p ps fuel t

def removeAll (p : Char) (ps : Chars) (s : Chars) : Chars :=
  removeAllFuel p ps s.length s

theorem length_dropWhile_le (p : Char → Bool) (l : Chars) :
    (l.dropWhile p).length ≤ l.length := by
  induction l with
  | nil => simp [List.dropWhile]
  | cons c t ih =>
    by_cases h : p c <;> simp [List.dropWhile, h]
    omega

/-- `re.sub(r',\s*C', 'C', s)` for a closing character `C`: each comma
followed by optional whitespace and `C` is replaced by `C` alone, scanning
left to right without overlap.  Fuel as in `removeAllFuel`. -/
def subCommaCloseFuel (close : Char) : Nat → Chars → Chars
  | 0, s => s
  | _ + 1, [] => []
  | fuel + 1, c :: t =>
    if c = ',' ∧ (t.dropWhile pyWs).head? = some close then
      close :: subCommaCloseFuel close fuel ((t.dropWhile pyWs).tail)
    else
      c :: subCommaCloseFuel close fuel t

def subCommaClose (close : Char) (s : Chars) : Chars :=
  subCommaCloseFuel close s.length s

/-- The repair pass of `app_v3.py`'s `generate_kyb_report` (lines 416–422),
applied to the raw model output before `json.loads`. -/
def repairCandidate (s : Chars) : Chars :=
  let t := trimWs s
  let t :=
    if fenceOpen.isPrefixOf t then
      removeAll '`' (fenceClose.drop 1) (removeAll '`' (fenceOpen.drop 1) t)
    else t
  let t := t.map (fun c => if c = '\'' then '"' else c)
  let t := subCommaClose '\x7d' t
  subCommaClose '\x5d' t

/-! ## A model of Python `json.dumps`

Default separators and `ensure_ascii=True`.  Non-BMP code points (which
would need surrogate-pair escapes) do not occur in the values considered
here; the model escapes any non-ASCII code point as a single `\uXXXX`. -/

def hexDigit (n : Nat) : Char :=
  if n < 10 then Char.ofNat ('0'.toNat + n) else Char.ofNat ('a'.toNat + n - 10)

def hex4 (n : Nat) : Chars :=
  [hexDigit (n / 4096 % 16), hexDigit (n / 256 % 16), hexDigit (n / 16 % 16),
   hexDigit (n % 16)]

/-- Escape one character as `json.dumps` does inside a string literal. -/
def escChar (c : Char) : Chars :=
  if c = '"' then ['\\', '"']
  else if c = '\\' then ['\\', '\\']
  else if c = '\n' then ['\\', 'n']
  else if c = '\t' then ['\\', 't']
  else if c = '\x0d' then ['\\', 'r']
  else if c = '\x08' then ['\\', 'b']
  else if c = '\x0c' then ['\\', 'f']
  else if c.toNat < 0x20 ∨ c.toNat ≥ 0x7f then '\\' :: 'u' :: hex4 c.toNat
  else [c]

mutual

/-- `json.dumps(v)` with default separators.  The fuel bounds the nesting
depth, mirroring CPython's recursion limit; `dumpVal` supplies a depth far
beyond the default `sys.setrecursionlimit`. -/
def dumpValFuel : Nat → JValue → Chars
  | 0, _ => []
  | _ + 1, jnull => "null".toList
  | _ + 1, jbool true => "true".toList
  | _ + 1, jbool false => "false".toList
  | _ + 1, jnum n => (toString n).toList
  | _ + 1, jstr s => '"' :: (s.map escChar).flatten ++ ['"']
  | fuel + 1, jarr xs => '\x5b' :: dumpArrFuel fuel xs ++ ['\x5d']
  | fuel + 1, jobj kvs => '\x7b' :: dumpObjFuel fuel kvs ++ ['\x7d']

def dumpArrFuel : Nat → List JValue → Chars
  | 0, _ => []
  | _ + 1, [] => []
  | fuel + 1, [v] => dumpValFuel fuel v
  | fuel + 1, v :: w :: rest =>
    dumpValFuel fuel v ++ ", ".toList ++ dumpArrFuel fuel (w :: rest)

def dumpObjFuel : Nat → List (Chars × JValue) → Chars
  | 0, _ => []
  | _ + 1, [] => []
  | fuel + 1, [(k, v)] =>
    dumpValFuel fuel (jstr k) ++ ": ".toList ++ dumpValFuel fuel v
  | fuel + 1, (k, v) :: m :: rest =>
    dumpValFuel fuel (jstr k) ++ ": ".toList ++ dumpValFuel fuel v ++
      ", ".toList ++ dumpObjFuel fuel (m :: rest)

end

/-- `json.dumps(v)` with default separators and `ensure_ascii=True`. -/
def dumpVal (v : JValue) : Chars := dumpValFuel 10000 v

/-! ## A model of Python `str()` on parsed-JSON values

`str()` of a parsed value: a string is itself; containers print via
`repr`, with single-quoted strings (double-quoted when the string contains
a single quote but no double quote), `", "` item separators and `": "`
key separators.  Only used for `app_v3.py` line 506. -/

def pyStrReprQuote (s : Chars) : Char :=
  if s.contains '\'' ∧ ¬ s.contains '"' then '"' else '\''

def pyReprEscChar (q c : Char) : Chars :=
  if c = '\\' then ['\\', '\\']
  else if c = q then ['\\', q]
  else if c = '\n' then ['\\', 'n']
  else if c = '\x0d' then ['\\', 'r']
  else if c = '\t' then ['\\', 't']
  else if c.toNat < 0x20 ∨ c.toNat = 0x7f then
    '\\' :: 'x' :: [hexDigit (c.toNat / 16 % 16), hexDigit (c.toNat % 16)]
  else [c]

def pyStrRepr (s : Chars) : Chars :=
  let q := pyStrReprQuote s
  q :: (s.map (pyReprEscChar q)).flatten ++ [q]

mutual

/-- Python `repr()` of a parsed-JSON value. -/
def pyRepr : JValue → Chars
  | jnull => "None".toList
  | jbool true => "True".toList
  | jbool false => "False".toList
  | jnum n => (toString n).toList
  | jstr s => pyStrRepr s
  | jarr xs => '\x5b' :: pyReprArr xs ++ ['\x5d']
  | jobj kvs => '\x7b' :: pyReprObj kvs ++ ['\x7d']

def pyReprArr : List JValue → Chars
  | [] => []
  | [v] => pyRepr v
  | v :: w :: rest => pyRepr v ++ ", ".toList ++ pyReprArr (w :: rest)

def pyReprObj : List (Chars × JValue) → Chars
  | [] => []
  | [(k, v)] => pyStrRepr k ++ ": ".toList ++ pyRepr v
  | (k, v) :: m :: rest =>
    pyStrRepr k ++ ": ".toList ++ pyRepr v ++ ", ".toList ++ pyReprObj (m :: rest)

end

/-- Python `str()` of a parsed-JSON value. -/
def pyStr : JValue → Chars
  | jstr s => s
  | v => pyRepr v

/-! ## Canonical field names and sentinels -/

def sentinel : Chars := "Not publicly available".toList

def kCompanyName : Chars := "company_name".toList

def kRegistrationNumber : Chars := "registration_number".toList

def kIncorporationDate : Chars := "incorporation_date".toList

def kBeneficialOwners : Chars := "beneficial_owners".toList

def kFinancialSummary : Chars := "financial_summary".toList

def kRiskIndicators : Chars := "risk_indicators".toList

def kRawData : Chars := "raw_data".toList

def kDetails : Chars := "details".toList

def kOwnerName : Chars := "name".toList

def kOwnershipPercentage : Chars := "ownership_percentage".toList

def kTitle : Chars := "title".toList

def kRevenue : Chars := "revenue".toList

def kLeadershipInfo : Chars := "leadership_info".toList

def unknownPct : Chars := "Unknown".toList

/-- The `leadership_info` sentinel produced by `scrape_additional_data`
(`script_v3.py` line 215). -/
def leadershipSentinel : Chars := "Not found on website".toList

/-! ## The `script_v3.py` Report Normalizer (lines 65–106)

`generate_kyb_report` after the LLM call: extraction, `json.loads`, the
two string-to-sequence field coercions, and the fallback record on
`json.JSONDecodeError`.  The same code appears in `app_v2.py` lines 94–133.
A successful parse of a non-dict value makes the subsequent `.get`
attribute access raise `AttributeError`, which no handler catches. -/

/-- `script_v3.py` lines 78–84: if `beneficial_owners` holds a string,
replace the sentinel by the empty list and any other string `s` by
`[{"name": s, "ownership_percentage": "Unknown"}]`. -/
def coerceOwnersField (r : Record) : Record :=
  match rget r kBeneficialOwners with
  | some (jstr s) =>
    if s = sentinel then rset r kBeneficialOwners (jarr [])
    else
      rset r kBeneficialOwners
        (jarr [jobj [(kOwnerName, jstr s), (kOwnershipPercentage, jstr unknownPct)]])
  | _ => r

/-- Python `item.strip() for item in s.split(',')`. -/
def splitCommaStrip (s : Chars) : List Chars :=
  (s.splitOn ',').map trimWs

/-- `script_v3.py` lines 86–92: if `risk_indicators` holds a string,
replace the sentinel by the empty list and any other string by the list of
its comma-separated segments, each stripped. -/
def coerceRisksField (r : Record) : Record :=
  match rget r kRiskIndicators with
  | some (jstr s) =>
    if s = sentinel then rset r kRiskIndicators (jarr [])
    else rset r kRiskIndicators (jarr ((splitCommaStrip s).map jstr))
  | _ => r

/-- `script_v3.py` lines 98–106: the fallback record built on parse
failure.  `output_text` is the extracted candidate at that point. -/
def fallbackReport (company_name output_text : Chars) : Record :=
  [(kCompanyName, jstr company_name),
   (kRawData, jstr output_text),
   (kRegistrationNumber, jstr sentinel),
   (kIncorporationDate, jstr sentinel),
   (kBeneficialOwners, jarr []),
   (kFinancialSummary, jobj [(kDetails, jstr sentinel)]),
   (kRiskIndicators, jarr [])]

/-- Result of one normalizer run: a returned dict, or an uncaught Python
exception. -/
inductive NormResult where
  | report (r : Record)
  | pyError
deriving DecidableEq

/-- The Report Normalizer of `script_v3.py` (`generate_kyb_report` lines
65–106) as a function of the caller-supplied company name and the raw
model output text. -/
def scriptV3_generate_kyb_report (company_name output_text : Chars) : NormResult :=
  let cand := extractCandidate output_text
  match parseJson cand with
  | some (jobj kyb_report) =>
    NormResult.report (coerceRisksField (coerceOwnersField kyb_report))
  | some _ => NormResult.pyError
  | none => NormResult.report (fallbackReport company_name cand)

/-! ## The `app_v3.py` Report Normalizer (lines 414–512)

Repair pass, `json.loads`, a data-sparseness check (lines 432–441), an
optional web-scraping merge (lines 443–487, external network I/O, modelled
as an arbitrary transformation of the parsed dict), and the final
restructuring into exactly the six canonical fields (lines 489–506).
Any `AttributeError` raised inside the `try` block is caught by the outer
`except Exception` (line 510), which returns `None`; a `JSONDecodeError`
is caught at line 426 and also returns `None`. -/

/-- `app_v3.py` lines 499–500: `[bo] if bo != sentinel else []` when the
value is not a list. -/
def fixOwners (v : JValue) : JValue :=
  match v with
  | jarr xs => jarr xs
  | v => if v = jstr sentinel then jarr [] else jarr [v]

/-- `app_v3.py` lines 502–503: same wrapping for `risk_indicators`. -/
def fixRisks (v : JValue) : JValue :=
  match v with
  | jarr xs => jarr xs
  | v => if v = jstr sentinel then jarr [] else jarr [v]

/-- `app_v3.py` lines 505–506: wrap a non-dict `financial_summary` as
`{"details": str(value)}`. -/
def fixFinancial (v : JValue) : JValue :=
  match v with
  | jobj kvs => jobj kvs
  | v => jobj [(kDetails, jstr (pyStr v))]

/-- `app_v3.py` lines 489–506: rebuild the report with exactly the six
canonical keys, overwriting `company_name` with the caller-supplied value
and coercing the three container fields. -/
def restructureReport (company_name : Chars) (kyb_report : Record) : Record :=
  [(kCompanyName, jstr company_name),
   (kRegistrationNumber, (rget kyb_report kRegistrationNumber).getD (jstr sentinel)),
   (kIncorporationDate, (rget kyb_report kIncorporationDate).getD (jstr sentinel)),
   (kBeneficialOwners, fixOwners ((rget kyb_report kBeneficialOwners).getD (jarr []))),
   (kFinancialSummary, fixFinancial ((rget kyb_report kFinancialSummary).getD (jobj []))),
   (kRiskIndicators, fixRisks ((rget kyb_report kRiskIndicators).getD (jarr [])))]

/-- `app_v3.py` lines 432–441: the sparseness check.  `none` models the
`AttributeError` raised by `.get("revenue", ...)` when `financial_summary`
is present but not a dict. -/
def hasDataCheck (r : Record) : Option Bool :=
  let b₁ := (rget r kRegistrationNumber).getD (jstr sentinel) ≠ jstr sentinel ∨
    (rget r kIncorporationDate).getD (jstr sentinel) ≠ jstr sentinel
  let b₂ := truthy ((rget r kBeneficialOwners).getD (jarr [])) ∨
    truthy ((rget r kRiskIndicators).getD (jarr []))
  match (rget r kFinancialSummary).getD (jobj []) with
  | jobj fin =>
    some (decide b₁ || decide b₂ ||
      decide ((rget fin kRevenue).getD (jstr sentinel) ≠ jstr sentinel))
  | _ => none

/-- The Report Normalizer of `app_v3.py` (`generate_kyb_report` lines
414–512) from the raw model output onward.  `scrapeMerge` abstracts the
web-scraping fallback (lines 443–487): network I/O followed by in-place
updates of the parsed dict, applied only when the sparseness check is
negative.  `none` models a `None` return. -/
def appV3_generate_kyb_report (scrapeMerge : Record → Record)
    (company_name output_text : Chars) : Option Record :=
  let t := repairCandidate output_text
  match parseJson t with
  | none => none
  | some (jobj kyb_report) =>
    match hasDataCheck kyb_report with
    | none => none
    | some true => some (restructureReport company_name kyb_report)
    | some false => some (restructureReport company_name (scrapeMerge kyb_report))
  | some _ => none

/-! ## The Enrichment Merger (`script_v3.py` lines 269–275)

`main` merges scraped leadership data into `beneficial_owners` only when
the model-derived owners are empty and the scraped `leadership_info` is
truthy and not the sentinel.  `none` models an uncaught Python exception
(`TypeError`/`KeyError` on malformed leadership data, or `len()` on an
unsized truthy value). -/

/-- One element of the merged owner list (`script_v3.py` line 273):
`{"name": leader["name"], "ownership_percentage": "Unknown",
"title": leader["title"]}`; subscripting anything but a dict having both
keys raises. -/
def ownerFromLeader (leader : JValue) : Option JValue :=
  match leader with
  | jobj kvs =>
    match rget kvs kOwnerName, rget kvs kTitle with
    | some n, some t =>
      some (jobj [(kOwnerName, n), (kOwnershipPercentage, jstr unknownPct), (kTitle, t)])
    | _, _ => none
  | _ => none

/-- The list comprehension of `script_v3.py` lines 272–275: build one owner
per leadership entry, propagating any exception. -/
def ownersFromLeaders : List JValue → Option (List JValue)
  | [] => some []
  | l :: ls =>
    match ownerFromLeader l, ownersFromLeaders ls with
    | some o, some os => some (o :: os)
    | _, _ => none

/-- `script_v3.py` lines 269–275: the beneficial-owner enrichment merge,
acting on the profile record (`full_profile` carries the same
`beneficial_owners` value as `kyb_report`). -/
def mergeOwners (kyb_report enrichment_data : Record) : Option Record :=
  let condition : Option Bool :=
    if ¬ truthy ((rget kyb_report kBeneficialOwners).getD jnull) then some true
    else
      match pyLen ((rget kyb_report kBeneficialOwners).getD (jarr [])) with
      | some n => some (n = 0)
      | none => none
  match condition with
  | none => none
  | some false => some kyb_report
  | some true =>
    let li := (rget enrichment_data kLeadershipInfo).getD jnull
    if truthy li ∧ li ≠ jstr leadershipSentinel then
      match li with
      | jarr leaders =>
        (ownersFromLeaders leaders).map
          (fun owners => rset kyb_report kBeneficialOwners (jarr owners))
      | _ => none
    else some kyb_report

/-! ## Concrete test inputs used by witnesses and counterexamples -/

/-- A raw model output that is valid JSON with backticks hidden inside
`\u0060` string escapes: it parses cleanly, but its normalized record
contains literal fence markers inside string values. -/
def c8raw : Chars :=
  ("\x7b\"registration_number\": \"\\u0060\\u0060\\u0060json x\", \"risk_indicators\": \"\\u0060\\u0060\\u0060\"\x7d").toList

/-- The normalized record `script_v3.py` produces from `c8raw`. -/
def c8firstOut : Record :=
  [(kRegistrationNumber, jstr ("```json x".toList)),
   (kRiskIndicators, jarr [jstr ("```".toList)])]

/-- The spurious fenced-block interior that extraction finds inside the
serialized form of `c8firstOut`. -/
def c8interior : Chars := "x\", \"risk_indicators\": [\"".toList

/-- A raw model output that is already valid JSON and whose string value
contains an apostrophe. -/
def c10raw : Chars :=
  "\x7b\"registration_number\": \"O\x27Brien Ltd\"\x7d".toList

/-! ## Helper lemmas -/

theorem rget_rset_self (r : Record) (k : Chars) (v : JValue) :
    rget (rset r k v) k = some v := by
  induction r with
  | nil => simp [rget, rset]
  | cons p t ih =>
    by_cases h : p.1 = k <;> simp [rget, rset, h, ih]

theorem rget_rset_ne (r : Record) (k k' : Chars) (v : JValue) (hne : k' ≠ k) :
    rget (rset r k v) k' = rget r k' := by
  have hkk : ¬ k = k' := fun hh => hne hh.symm
  induction r with
  | nil => simp [rget, rset, hkk]
  | cons p t ih =>
    by_cases h : p.1 = k
    · have h' : ¬ p.1 = k' := by rw [h]; exact hkk
      simp [rget, rset, h, hkk, h']
    · by_cases h' : p.1 = k' <;> simp [rget, rset, h, h', ih, hne]

theorem mem_of_mem_dropWhile {p : Char → Bool} {l : Chars} {c : Char}
    (h : c ∈ l.dropWhile p) : c ∈ l := by
  induction l with
  | nil => simp at h
  | cons a t ih =>
    by_cases hp : p a <;> simp [List.dropWhile, hp] at h
    · exact List.mem_cons_of_mem _ (ih h)
    · exact List.mem_cons.mpr h

theorem mem_subCommaCloseFuel (close : Char) (fuel : Nat) (s : Chars) (c : Char) :
    c ∈ subCommaCloseFuel close fuel s → c ∈ s ∨ c = close := by
  induction fuel generalizing s with
  | zero => exact fun h => Or.inl h
  | succ f ih =>
    cases s with
    | nil => intro h; simp [subCommaCloseFuel] at h
    | cons c₁ t =>
      by_cases hcond : c₁ = ',' ∧ (t.dropWhile pyWs).head? = some close
      · intro h
        rw [subCommaCloseFuel, if_pos hcond] at h
        rcases List.mem_cons.mp h with h | h
        · right; exact h
        · rcases ih _ h with h' | h'
          · left
            exact List.mem_cons_of_mem _
              (mem_of_mem_dropWhile (List.mem_of_mem_tail h'))
          · right; exact h'
      · intro h
        rw [subCommaCloseFuel, if_neg hcond] at h
        rcases List.mem_cons.mp h with h | h
        · left; exact h ▸ List.mem_cons_self _ _
        · rcases ih _ h with h' | h'
          · left; exact List.mem_cons_of_mem _ h'
          · right; exact h'

theorem mem_subCommaClose (close : Char) (s : Chars) (c : Char) :
    c ∈ subCommaClose close s → c ∈ s ∨ c = close :=
  mem_subCommaCloseFuel close s.length s c

/-- The quote-normalization step leaves no single quote anywhere, and the
two comma substitutions only introduce closing brackets, so the repaired
candidate never contains a single quote. -/
theorem repair_no_quote (s : Chars) : '\x27' ∉ repairCandidate s := by
  intro hmem
  unfold repairCandidate at hmem
  rcases mem_subCommaClose _ _ _ hmem with h | h
  · rcases mem_subCommaClose _ _ _ h with h' | h'
    · rcases List.mem_map.mp h' with ⟨a, _, ha⟩
      by_cases hq : a = '\x27' <;> simp [hq] at ha
    · exact absurd h' (by decide)
  · exact absurd h (by decide)

theorem contains_quote_false (s : Chars) :
    (repairCandidate s).contains '\x27' = false := by
  simpa using repair_no_quote s

theorem fixOwners_shape (v : JValue) : ∃ xs, fixOwners v = jarr xs := by
  cases v
  case jarr xs => exact ⟨xs, rfl⟩
  all_goals
    simp only [fixOwners]
    split
    · exact ⟨[], rfl⟩
    · exact ⟨_, rfl⟩

theorem fixRisks_shape (v : JValue) : ∃ xs, fixRisks v = jarr xs := by
  cases v
  case jarr xs => exact ⟨xs, rfl⟩
  all_goals
    simp only [fixRisks]
    split
    · exact ⟨[], rfl⟩
    · exact ⟨_, rfl⟩

theorem fixFinancial_shape (v : JValue) : ∃ kvs, fixFinancial v = jobj kvs := by
  cases v
  case jobj kvs => exact ⟨kvs, rfl⟩
  all_goals exact ⟨_, rfl⟩

theorem fixOwners_idem (v : JValue) : fixOwners (fixOwners v) = fixOwners v := by
  obtain ⟨xs, h⟩ := fixOwners_shape v
  rw [h]
  rfl

theorem fixRisks_idem (v : JValue) : fixRisks (fixRisks v) = fixRisks v := by
  obtain ⟨xs, h⟩ := fixRisks_shape v
  rw [h]
  rfl

theorem fixFinancial_idem (v : JValue) :
    fixFinancial (fixFinancial v) = fixFinancial v := by
  obtain ⟨kvs, h⟩ := fixFinancial_shape v
  rw [h]
  rfl

theorem restructure_idem (name : Chars) (r : Record) :
    restructureReport name (restructureReport name r) = restructureReport name r := by
  have h : restructureReport name (restructureReport name r) =
      [(kCompanyName, jstr name),
       (kRegistrationNumber, (rget r kRegistrationNumber).getD (jstr sentinel)),
       (kIncorporationDate, (rget r kIncorporationDate).getD (jstr sentinel)),
       (kBeneficialOwners,
         fixOwners (fixOwners ((rget r kBeneficialOwners).getD (jarr [])))),
       (kFinancialSummary,
         fixFinancial (fixFinancial ((rget r kFinancialSummary).getD (jobj [])))),
       (kRiskIndicators,
         fixRisks (fixRisks ((rget r kRiskIndicators).getD (jarr []))))] := rfl
  rw [h, fixOwners_idem, fixFinancial_idem, fixRisks_idem]
  rfl

theorem coerceOwners_idem (r : Record) :
    coerceOwnersField (coerceOwnersField r) = coerceOwnersField r := by
  cases h : rget r kBeneficialOwners with
  | none => simp [coerceOwnersField, h]
  | some v =>
    cases v with
    | jstr s =>
      by_cases hs : s = sentinel
      · subst hs
        simp [coerceOwnersField, h, rget_rset_self]
      · simp [coerceOwnersField, h, hs, rget_rset_self]
    | jnull => simp [coerceOwnersField, h]
    | jbool b => simp [coerceOwnersField, h]
    | jnum n => simp [coerceOwnersField, h]
    | jarr xs => simp [coerceOwnersField, h]
    | jobj kvs => simp [coerceOwnersField, h]

theorem coerceRisks_idem (r : Record) :
    coerceRisksField (coerceRisksField r) = coerceRisksField r := by
  cases h : rget r kRiskIndicators with
  | none => simp [coerceRisksField, h]
  | some v =>
    cases v with
    | jstr s =>
      by_cases hs : s = sentinel
      · subst hs
        simp [coerceRisksField, h, rget_rset_self]
      · simp [coerceRisksField, h, hs, rget_rset_self]
    | jnull => simp [coerceRisksField, h]
    | jbool b => simp [coerceRisksField, h]
    | jnum n => simp [coerceRisksField, h]
    | jarr xs => simp [coerceRisksField, h]
    | jobj kvs => simp [coerceRisksField, h]

theorem rget_coerceRisks_bo (r : Record) :
    rget (coerceRisksField r) kBeneficialOwners = rget r kBeneficialOwners := by
  have hne : kBeneficialOwners ≠ kRiskIndicators := by decide
  cases h : rget r kRiskIndicators with
  | none => simp [coerceRisksField, h]
  | some v =>
    cases v with
    | jstr s =>
      by_cases hs : s = sentinel
      · subst hs
        simp [coerceRisksField, h, rget_rset_ne _ _ _ _ hne]
      · simp [coerceRisksField, h, hs, rget_rset_ne _ _ _ _ hne]
    | jnull => simp [coerceRisksField, h]
    | jbool b => simp [coerceRisksField, h]
    | jnum n => simp [coerceRisksField, h]
    | jarr xs => simp [coerceRisksField, h]
    | jobj kvs => simp [coerceRisksField, h]

/-- After the owners coercion, the `beneficial_owners` value is never a
string. -/
theorem rget_coerceOwners_bo_not_str (r : Record) (s : Chars) :
    rget (coerceOwnersField r) kBeneficialOwners ≠ some (jstr s) := by
  cases h : rget r kBeneficialOwners with
  | none => simp [coerceOwnersField, h]
  | some v =>
    cases v with
    | jstr s₁ =>
      by_cases hs : s₁ = sentinel
      · subst hs
        simp [coerceOwnersField, h, rget_rset_self]
      · simp [coerceOwnersField, h, hs, rget_rset_self]
    | jnull => simp [coerceOwnersField, h]
    | jbool b => simp [coerceOwnersField, h, h]
    | jnum n => simp [coerceOwnersField, h, h]
    | jarr xs => simp [coerceOwnersField, h, h]
    | jobj kvs => simp [coerceOwnersField, h, h]

theorem coerceOwners_of_not_str (r : Record)
    (h : ∀ s, rget r kBeneficialOwners ≠ some (jstr s)) :
    coerceOwnersField r = r := by
  cases hv : rget r kBeneficialOwners with
  | none => simp [coerceOwnersField, hv]
  | some v =>
    cases v with
    | jstr s => exact absurd hv (h s)
    | jnull => simp [coerceOwnersField, hv]
    | jbool b => simp [coerceOwnersField, hv]
    | jnum n => simp [coerceOwnersField, hv]
    | jarr xs => simp [coerceOwnersField, hv]
    | jobj kvs => simp [coerceOwnersField, hv]

/-- Re-running the two `script_v3.py` field coercions on an
already-coerced record changes nothing. -/
theorem coerce_pipeline_idem (r : Record) :
    coerceRisksField (coerceOwnersField (coerceRisksField (coerceOwnersField r))) =
      coerceRisksField (coerceOwnersField r) := by
  have hB : coerceOwnersField (coerceRisksField (coerceOwnersField r)) =
      coerceRisksField (coerceOwnersField r) := by
    apply coerceOwners_of_not_str
    intro s
    rw [rget_coerceRisks_bo]
    exact rget_coerceOwners_bo_not_str r s
  rw [hB, coerceRisks_idem]

theorem ownerFromLeader_wellformed (n t : Chars) :
    ownerFromLeader (jobj [(kOwnerName, jstr n), (kTitle, jstr t)]) =
      some (jobj [(kOwnerName, jstr n), (kOwnershipPercentage, jstr unknownPct),
        (kTitle, jstr t)]) := rfl

theorem ownersFromLeaders_wellformed (leaders : List (Chars × Chars)) :
    ownersFromLeaders
        (leaders.map (fun p => jobj [(kOwnerName, jstr p.1), (kTitle, jstr p.2)])) =
      some (leaders.map (fun p =>
        jobj [(kOwnerName, jstr p.1), (kOwnershipPercentage, jstr unknownPct),
          (kTitle, jstr p.2)])) := by
  induction leaders with
  | nil => rfl
  | cons p t ih => simp [ownersFromLeaders, ownerFromLeader_wellformed, ih]

/-! ## Claims -/

/-- C4: For every raw response text, the extraction step selects the interior
of a 3-backtick json fenced code block when one is found; the bare
brace-delimited span is used only when no fenced block is found, and the
full text only when neither is found. -/
theorem c4_extraction_precedence (text : Chars) :
    (∀ c, fencedBlock text = some c → extractCandidate text = c) ∧
    (∀ b, fencedBlock text = none → braceSpan text = some b →
      extractCandidate text = b) ∧
    (fencedBlock text = none → braceSpan text = none →
      extractCandidate text = text) := by
  refine ⟨fun c hc => ?_, fun b hf hb => ?_, fun hf hb => ?_⟩ <;>
    simp [extractCandidate, *]

/-- C4 witness: on a text containing both a fenced json block and a
different bare-brace span, extraction picks the fenced interior. -/
theorem c4_extraction_precedence_witness :
    fencedBlock ("pre ```json \x7b\"a\": 1\x7d ``` mid \x7b\"b\": 2\x7d post".toList) =
      some ("\x7b\"a\": 1\x7d".toList) ∧
    braceSpan ("pre ```json \x7b\"a\": 1\x7d ``` mid \x7b\"b\": 2\x7d post".toList) =
      some ("\x7b\"a\": 1\x7d ``` mid \x7b\"b\": 2\x7d".toList) ∧
    extractCandidate ("pre ```json \x7b\"a\": 1\x7d ``` mid \x7b\"b\": 2\x7d post".toList) =
      "\x7b\"a\": 1\x7d".toList :=
  ⟨by decide, by decide,
    (c4_extraction_precedence _).1 _ (by decide)⟩

/-- C5: The repair pass eliminates every single quote (quote
normalization), and on the spec's test input (single quotes, trailing
comma) the repaired candidate parses, without raising, to the object with
key "a" and value "b"; a fenced variant also parses after fence
stripping and trailing-comma removal. -/
theorem c5_repair_correctness :
    parseJson (repairCandidate ("\x7b\x27a\x27: \x27b\x27,\x7d".toList)) =
      some (jobj [("a".toList, jstr ("b".toList))]) ∧
    (∀ s : Chars, (repairCandidate s).contains '\x27' = false) ∧
    parseJson (repairCandidate ("```json\n\x7b\"a\": \"b\",\x7d\n```".toList)) =
      some (jobj [("a".toList, jstr ("b".toList))]) :=
  ⟨rfl, contains_quote_false, rfl⟩

/-- C6: the beneficial-owners coercion maps the sentinel string to the empty
sequence, any other string s to the singleton owner record with name s and
ownership percentage "Unknown", and leaves a sequence unchanged. -/
theorem c6_owner_coercion (r : Record) :
    (rget r kBeneficialOwners = some (jstr sentinel) →
      rget (coerceOwnersField r) kBeneficialOwners = some (jarr [])) ∧
    (∀ s, rget r kBeneficialOwners = some (jstr s) → s ≠ sentinel →
      rget (coerceOwnersField r) kBeneficialOwners =
        some (jarr [jobj [(kOwnerName, jstr s),
          (kOwnershipPercentage, jstr unknownPct)]])) ∧
    (∀ xs, rget r kBeneficialOwners = some (jarr xs) →
      coerceOwnersField r = r) := by
  refine ⟨fun h => ?_, fun s h hs => ?_, fun xs h => ?_⟩
  · simp [coerceOwnersField, h, rget_rset_self]
  · simp [coerceOwnersField, h, hs, rget_rset_self]
  · simp [coerceOwnersField, h]

/-- C6 witness: a record with beneficial_owners "Jane Doe" coerces to a
singleton owner list; one with the sentinel coerces to the empty list. -/
theorem c6_owner_coercion_witness :
    rget (coerceOwnersField [(kBeneficialOwners, jstr ("Jane Doe".toList))])
        kBeneficialOwners =
      some (jarr [jobj [(kOwnerName, jstr ("Jane Doe".toList)),
        (kOwnershipPercentage, jstr unknownPct)]]) ∧
    rget (coerceOwnersField [(kBeneficialOwners, jstr sentinel)])
        kBeneficialOwners = some (jarr []) :=
  ⟨(c6_owner_coercion [(kBeneficialOwners, jstr ("Jane Doe".toList))]).2.1
      ("Jane Doe".toList) rfl (by decide),
    (c6_owner_coercion [(kBeneficialOwners, jstr sentinel)]).1 rfl⟩

/-- C7: the risk-indicators coercion maps the sentinel string to the empty
sequence, any other string to its comma-split whitespace-trimmed
segments, and leaves a sequence unchanged. -/
theorem c7_risk_coercion (r : Record) :
    (rget r kRiskIndicators = some (jstr sentinel) →
      rget (coerceRisksField r) kRiskIndicators = some (jarr [])) ∧
    (∀ s, rget r kRiskIndicators = some (jstr s) → s ≠ sentinel →
      rget (coerceRisksField r) kRiskIndicators =
        some (jarr ((splitCommaStrip s).map jstr))) ∧
    (∀ xs, rget r kRiskIndicators = some (jarr xs) →
      coerceRisksField r = r) := by
  refine ⟨fun h => ?_, fun s h hs => ?_, fun xs h => ?_⟩
  · simp [coerceRisksField, h, rget_rset_self]
  · simp [coerceRisksField, h, hs, rget_rset_self]
  · simp [coerceRisksField, h]

/-- C7 witness: "lawsuit, fine" splits and trims to the two risk strings. -/
theorem c7_risk_coercion_witness :
    rget (coerceRisksField [(kRiskIndicators, jstr ("lawsuit, fine".toList))])
        kRiskIndicators =
      some (jarr [jstr ("lawsuit".toList), jstr ("fine".toList)]) ∧
    rget (coerceRisksField [(kRiskIndicators, jstr sentinel)])
        kRiskIndicators = some (jarr []) :=
  ⟨((c7_risk_coercion [(kRiskIndicators, jstr ("lawsuit, fine".toList))]).2.1
      ("lawsuit, fine".toList) rfl (by decide)).trans rfl,
    (c7_risk_coercion [(kRiskIndicators, jstr sentinel)]).1 rfl⟩

/-- C1 (amended): `app_v3.py`'s final restructuring always outputs exactly
the six canonical fields, with `company_name` the caller-supplied string,
`beneficial_owners` and `risk_indicators` sequences and
`financial_summary` a mapping, whatever dict the parse produced; on parse
failure `app_v3.py` yields no record at all (empty input returns `None`).
(`registration_number` and `incorporation_date` keep whatever value the
parsed object held, not necessarily strings.) -/
theorem c1_total_field_coverage_amended (name : Chars) (r : Record) :
    (restructureReport name r).map Prod.fst =
      [kCompanyName, kRegistrationNumber, kIncorporationDate,
       kBeneficialOwners, kFinancialSummary, kRiskIndicators] ∧
    rget (restructureReport name r) kCompanyName = some (jstr name) ∧
    (∃ xs, rget (restructureReport name r) kBeneficialOwners = some (jarr xs)) ∧
    (∃ xs, rget (restructureReport name r) kRiskIndicators = some (jarr xs)) ∧
    (∃ kvs, rget (restructureReport name r) kFinancialSummary = some (jobj kvs)) ∧
    (∀ scrapeMerge, appV3_generate_kyb_report scrapeMerge name [] = none) := by
  refine ⟨rfl, rfl, ?_, ?_, ?_, fun scrapeMerge => rfl⟩
  · obtain ⟨xs, h⟩ := fixOwners_shape ((rget r kBeneficialOwners).getD (jarr []))
    exact ⟨xs, by rw [show rget (restructureReport name r) kBeneficialOwners =
      some (fixOwners ((rget r kBeneficialOwners).getD (jarr []))) from rfl, h]⟩
  · obtain ⟨xs, h⟩ := fixRisks_shape ((rget r kRiskIndicators).getD (jarr []))
    exact ⟨xs, by rw [show rget (restructureReport name r) kRiskIndicators =
      some (fixRisks ((rget r kRiskIndicators).getD (jarr []))) from rfl, h]⟩
  · obtain ⟨kvs, h⟩ := fixFinancial_shape ((rget r kFinancialSummary).getD (jobj []))
    exact ⟨kvs, by rw [show rget (restructureReport name r) kFinancialSummary =
      some (fixFinancial ((rget r kFinancialSummary).getD (jobj []))) from rfl, h]⟩

/-- C1 counterexample: `script_v3.py`'s normalizer on the minimal input
consisting of an empty JSON object returns the empty record: none of the
six canonical fields is present (shown for `registration_number`). -/
theorem c1_total_field_coverage_cex :
    scriptV3_generate_kyb_report ("Acme Corp".toList) ("\x7b\x7d".toList) =
      NormResult.report [] ∧
    rget [] kRegistrationNumber = none :=
  ⟨rfl, rfl⟩

/-- C2 (amended): whenever the extracted candidate fails to parse,
`script_v3.py`'s normalizer returns (rather than raises) the fallback
record, whose `registration_number` and `incorporation_date` hold the
sentinel, whose `beneficial_owners` and `risk_indicators` are empty
sequences, whose `financial_summary` is the details-sentinel mapping, and
whose `raw_data` holds the extracted candidate text (which equals the
original input only when no fenced block or brace span was found). -/
theorem c2_parse_failure_fallback_amended (name text : Chars)
    (h : parseJson (extractCandidate text) = none) :
    scriptV3_generate_kyb_report name text =
      NormResult.report (fallbackReport name (extractCandidate text)) ∧
    rget (fallbackReport name (extractCandidate text)) kRegistrationNumber =
      some (jstr sentinel) ∧
    rget (fallbackReport name (extractCandidate text)) kIncorporationDate =
      some (jstr sentinel) ∧
    rget (fallbackReport name (extractCandidate text)) kBeneficialOwners =
      some (jarr []) ∧
    rget (fallbackReport name (extractCandidate text)) kRiskIndicators =
      some (jarr []) ∧
    rget (fallbackReport name (extractCandidate text)) kFinancialSummary =
      some (jobj [(kDetails, jstr sentinel)]) ∧
    rget (fallbackReport name (extractCandidate text)) kRawData =
      some (jstr (extractCandidate text)) := by
  refine ⟨?_, rfl, rfl, rfl, rfl, rfl, rfl⟩
  simp only [scriptV3_generate_kyb_report, h]

/-- C2 witness: plain prose with no JSON takes the fallback path. -/
theorem c2_parse_failure_fallback_witness :
    scriptV3_generate_kyb_report ("Acme Corp".toList)
        ("plain prose with no json".toList) =
      NormResult.report (fallbackReport ("Acme Corp".toList)
        (extractCandidate ("plain prose with no json".toList))) :=
  (c2_parse_failure_fallback_amended ("Acme Corp".toList)
    ("plain prose with no json".toList) rfl).1

/-- C2 counterexample: on an input whose fenced block does not parse, the
fallback's `raw_data` holds the extracted candidate, not the original
input text. -/
theorem c2_raw_data_cex :
    scriptV3_generate_kyb_report ("Acme Corp".toList)
        ("x ```json notjson``` y".toList) =
      NormResult.report (fallbackReport ("Acme Corp".toList) ("notjson".toList)) ∧
    rget (fallbackReport ("Acme Corp".toList) ("notjson".toList)) kRawData =
      some (jstr ("notjson".toList)) ∧
    decide ("notjson".toList = "x ```json notjson``` y".toList) = false :=
  ⟨rfl, rfl, by decide⟩

/-- C3 (amended): `app_v3.py`'s restructuring and `script_v3.py`'s fallback
record always carry the caller-supplied company name; `script_v3.py`'s
successful-parse path, however, keeps whatever `company_name` the model
produced (see the counterexample). -/
theorem c3_company_name_override_amended (name : Chars) (r : Record) (text : Chars) :
    rget (restructureReport name r) kCompanyName = some (jstr name) ∧
    rget (fallbackReport name text) kCompanyName = some (jstr name) :=
  ⟨rfl, rfl⟩

/-- C3 counterexample: on the successful-parse path, `script_v3.py` keeps
the model-invented company name instead of the caller-supplied one. -/
theorem c3_company_name_override_cex :
    scriptV3_generate_kyb_report ("Acme Corp".toList)
        ("\x7b\"company_name\": \"Evil Co\"\x7d".toList) =
      NormResult.report [(kCompanyName, jstr ("Evil Co".toList))] ∧
    rget [(kCompanyName, jstr ("Evil Co".toList))] kCompanyName =
      some (jstr ("Evil Co".toList)) ∧
    decide ("Evil Co".toList = "Acme Corp".toList) = false :=
  ⟨rfl, rfl, by decide⟩

/-- C8 (amended): re-running the §4.2 field coercions on an
already-coerced record is a no-op (`script_v3.py`'s two coercions and
`app_v3.py`'s restructuring are idempotent as record transformations);
full-pipeline re-normalization of the serialized output is however not
idempotent in general (see the counterexample). -/
theorem c8_idempotence_amended (name : Chars) (r : Record) :
    coerceRisksField (coerceOwnersField (coerceRisksField (coerceOwnersField r))) =
      coerceRisksField (coerceOwnersField r) ∧
    restructureReport name (restructureReport name r) = restructureReport name r :=
  ⟨coerce_pipeline_idem r, restructure_idem name r⟩

/-- C8 counterexample: normalizing `c8raw` succeeds and yields
`c8firstOut`, whose string values contain fence markers (written as
``` escapes in the raw text); serializing and re-normalizing it makes
the extraction step grab a spurious fenced block, so the second run
returns the fallback record instead of `c8firstOut` — the two records
differ, e.g. on the `raw_data` field. -/
theorem c8_idempotence_cex :
    scriptV3_generate_kyb_report ("Acme Corp".toList) c8raw =
      NormResult.report c8firstOut ∧
    scriptV3_generate_kyb_report ("Acme Corp".toList) (dumpVal (jobj c8firstOut)) =
      NormResult.report (fallbackReport ("Acme Corp".toList) c8interior) ∧
    rget c8firstOut kRawData = none ∧
    rget (fallbackReport ("Acme Corp".toList) c8interior) kRawData =
      some (jstr c8interior) :=
  ⟨rfl, rfl, rfl, rfl⟩

/-- C9: the enrichment merge leaves a non-empty `beneficial_owners`
unchanged; when it is empty and `leadership_info` is a non-empty sequence
of name/title entries, it installs exactly one owner per entry, in order,
with ownership percentage "Unknown" and the scraped title carried over. -/
theorem c9_enrichment_merge (kyb enr : Record) :
    (∀ x xs, rget kyb kBeneficialOwners = some (jarr (x :: xs)) →
      mergeOwners kyb enr = some kyb) ∧
    (∀ leaders : List (Chars × Chars),
      rget kyb kBeneficialOwners = some (jarr []) →
      rget enr kLeadershipInfo =
        some (jarr (leaders.map (fun p =>
          jobj [(kOwnerName, jstr p.1), (kTitle, jstr p.2)]))) →
      leaders ≠ [] →
      mergeOwners kyb enr = some (rset kyb kBeneficialOwners
        (jarr (leaders.map (fun p =>
          jobj [(kOwnerName, jstr p.1), (kOwnershipPercentage, jstr unknownPct),
            (kTitle, jstr p.2)]))))) := by
  constructor
  · intro x xs h
    unfold mergeOwners
    rw [h]
    rfl
  · intro leaders h hli hne
    cases leaders with
    | nil => exact absurd rfl hne
    | cons p rest =>
      have hcond : truthy (jarr ((p :: rest).map (fun q =>
          jobj [(kOwnerName, jstr q.1), (kTitle, jstr q.2)]))) = true := rfl
      have hns : jarr ((p :: rest).map (fun q =>
          jobj [(kOwnerName, jstr q.1), (kTitle, jstr q.2)])) ≠
          jstr leadershipSentinel := nofun
      unfold mergeOwners
      rw [h, hli]
      simp only [Option.getD_some, truthy, List.isEmpty_cons, Bool.not_false,
        hcond, hns, ne_eq, not_false_iff, and_self, if_pos,
        ownersFromLeaders_wellformed]
      rfl

/-- C9 witness: with empty owners and two scraped leaders, the merge
installs two owner entries in order; with non-empty owners it changes
nothing. -/
theorem c9_enrichment_merge_witness :
    mergeOwners [(kBeneficialOwners, jarr [])]
        [(kLeadershipInfo, jarr
          [jobj [(kOwnerName, jstr ("Jane Roe".toList)), (kTitle, jstr ("CEO".toList))],
           jobj [(kOwnerName, jstr ("John Poe".toList)), (kTitle, jstr ("CTO".toList))]])] =
      some [(kBeneficialOwners, jarr
        [jobj [(kOwnerName, jstr ("Jane Roe".toList)),
          (kOwnershipPercentage, jstr unknownPct), (kTitle, jstr ("CEO".toList))],
         jobj [(kOwnerName, jstr ("John Poe".toList)),
          (kOwnershipPercentage, jstr unknownPct), (kTitle, jstr ("CTO".toList))]])] ∧
    mergeOwners [(kBeneficialOwners, jarr [jstr ("Existing Owner".toList)])]
        [(kLeadershipInfo, jarr
          [jobj [(kOwnerName, jstr ("Jane Roe".toList)), (kTitle, jstr ("CEO".toList))]])] =
      some [(kBeneficialOwners, jarr [jstr ("Existing Owner".toList)])] :=
  ⟨((c9_enrichment_merge [(kBeneficialOwners, jarr [])]
      [(kLeadershipInfo, jarr
        [jobj [(kOwnerName, jstr ("Jane Roe".toList)), (kTitle, jstr ("CEO".toList))],
         jobj [(kOwnerName, jstr ("John Poe".toList)), (kTitle, jstr ("CTO".toList))]])]).2
      [("Jane Roe".toList, "CEO".toList), ("John Poe".toList, "CTO".toList)]
      rfl rfl (by decide)).trans rfl,
    (c9_enrichment_merge [(kBeneficialOwners, jarr [jstr ("Existing Owner".toList)])]
      [(kLeadershipInfo, jarr
        [jobj [(kOwnerName, jstr ("Jane Roe".toList)),
          (kTitle, jstr ("CEO".toList))]])]).1
      (jstr ("Existing Owner".toList)) [] rfl⟩

/-- C10: the quote-normalization step replaces every single quote, even
inside valid double-quoted JSON strings: `c10raw` parses as-is, but its
repaired form no longer parses, so `app_v3.py`'s successful-parse branch
is not taken (it returns `None`). -/
theorem c10_quote_normalization (scrapeMerge : Record → Record) (name : Chars) :
    parseJson c10raw =
      some (jobj [(kRegistrationNumber, jstr ("O\x27Brien Ltd".toList))]) ∧
    (repairCandidate c10raw).contains '\x27' = false ∧
    parseJson (repairCandidate c10raw) = none ∧
    appV3_generate_kyb_report scrapeMerge name c10raw = none := by
  refine ⟨rfl, contains_quote_false c10raw, rfl, ?_⟩
  simp only [appV3_generate_kyb_report,
    show parseJson (repairCandidate c10raw) = none from rfl]
